import Mathlib

/-!
Verification of the OneClouds Sync Reconciliation and Deduplication Engine.

The definitions below are a shallow embedding of `backend/main.py`
(`sync_account_files`, `get_duplicates`, `sync_account`), of
`backend/models.py` (`FileMetadata.generate_size_hash`), and of the
provider adapters in `backend/storage_providers/`
(`base.py` `make_request`, `google_drive.py`, `dropbox_provider.py`,
`onedrive_provider.py`).

Modelling conventions:
- Python `None`-able values are `Option`; a Python dict key that may be
  absent is also an `Option` (absent and `None` are distinguished only
  where the code distinguishes them, and this is noted in place).
- `datetime` values are opaque `Nat` codes: reconciliation only ever
  compares them for equality and stores fresh "now" stamps.
- `hashlib.md5(...).hexdigest()` is an external library function; it is
  a parameter `md5hex : String → String` of every definition that calls
  it, so theorems quantify over it and witnesses instantiate it.
- Database rows for one storage account are a `List FileRecord`;
  SQLAlchemy object mutation is replacement of the corresponding list
  element (positions are stable, `db.add` appends).
- The `existing_metadata` Python dict comprehension keeps, for each
  `provider_file_id`, the LAST row of the query result; the embedding
  mirrors that (`lookupLast`, `updateLast`, and the last-occurrence
  guard inside `deactivatePass`).
-/

namespace OneClouds

/-- A normalized remote file descriptor as produced by the provider
adapters and consumed by `sync_account_files` (`cloud_file_data`).
`name` and `provider_file_id` are accessed with `[...]` in the source,
so they are mandatory; the rest is accessed with `.get`. `is_folder`
is `none` when the key is absent (no adapter under `storage_providers/`
emits it), and the engine reads it as `.get("is_folder", False)`. -/
structure CloudFile where
  provider_file_id : String
  name : String
  path : Option String
  mime_type : Option String
  is_folder : Option Bool
  size : Option Nat
  created_at : Option Nat
  modified_at : Option Nat
  download_link : Option String
  preview_link : Option String
  web_view_link : Option String
  content_hash : Option String
  deriving Repr, DecidableEq

/-- A `FileMetadata` row (`backend/models.py`), restricted to the columns
read or written by reconciliation and duplicate detection. -/
structure FileRecord where
  provider_file_id : String
  name : String
  path : Option String
  mime_type : Option String
  is_folder : Bool
  size : Option Nat
  created_at_source : Option Nat
  modified_at_source : Option Nat
  download_link : Option String
  preview_link : Option String
  web_view_link : Option String
  content_hash : Option String
  size_hash : Option String
  is_active : Bool
  created_at : Nat
  updated_at : Nat
  deriving Repr, DecidableEq

instance : Inhabited FileRecord :=
  ⟨{ provider_file_id := "", name := "", path := none, mime_type := none,
     is_folder := false, size := none, created_at_source := none,
     modified_at_source := none, download_link := none, preview_link := none,
     web_view_link := none, content_hash := none, size_hash := none,
     is_active := false, created_at := 0, updated_at := 0 }⟩

/-- Python `str.lower()`: per-character lowercasing (the repository only
ever feeds it file names). `String.toLower` in core is not kernel
reducible, so the character-list map is spelled out. -/
def strLower (s : String) : String := ⟨s.data.map Char.toLower⟩

/-- Python truthiness of an optional string: `None` and `""` are falsy. -/
def pyTruthyStr : Option String → Bool
  | none => false
  | some s => decide (s ≠ "")

/-- Python `a or b` on optional strings (used for
`computed_size_hash or existing_file.size_hash`). -/
def pyOrStr (a b : Option String) : Option String :=
  if pyTruthyStr a then a else b

/-- `_compute_size_hash` from `sync_account_files` (main.py lines 980-987):
`md5(f"{name.lower()}_{size}_{mime_type or ''}")` when `name` is truthy
and `size is not None`, else `None`. -/
def computeSizeHash (md5hex : String → String) :
    Option String → Option Nat → Option String → Option String
  | some n, some sz, mt =>
      if n = "" then none
      else some (md5hex (strLower n ++ "_" ++ toString sz ++ "_" ++ mt.getD ""))
  | _, _, _ => none

/-- `FileMetadata.generate_size_hash` (models.py lines 139-144): the guard
is `if self.size and self.name:`, so a size of `0` is falsy and yields
`None`, unlike `_compute_size_hash` which tests `size is not None`. -/
def generate_size_hash (md5hex : String → String)
    (name : Option String) (size : Option Nat) (mime_type : Option String) :
    Option String :=
  match size, name with
  | some sz, some n =>
      if sz ≠ 0 ∧ n ≠ "" then
        some (md5hex (strLower n ++ "_" ++ toString sz ++ "_" ++ mime_type.getD ""))
      else none
  | _, _ => none

/-- C9, as stated, fails at the empty name: `_compute_size_hash` returns
`None` for `name = ""` (the Python guard `if name and size is not None`
treats the empty string as falsy), not the md5 of `"_<size>_<mime>"`. -/
theorem compute_size_hash_empty_name_returns_none :
    computeSizeHash (fun s => s) (some "") (some 0) (some "") = none ∧
    (none : Option String) ≠ some (strLower "" ++ "_" ++ toString 0 ++ "_" ++ "") := by
  constructor
  · rfl
  · intro h
    cases h

/-- C9 (amended): for every hash function, every nonempty name, every
known size and every mime type, `_compute_size_hash` returns exactly
`md5(lowercase(name) + "_" + size + "_" + (mime or ""))`; it is
case-insensitive in the name (nonempty names with equal lowercasings hash
equally; determinism is definitional for a pure function). The
`FileMetadata.generate_size_hash` method computes the same value whenever
the size is additionally nonzero, but returns `None` for a size of `0`
because its guard `if self.size and self.name` tests truthiness. -/
theorem compute_size_hash_formula_and_case_insensitive
    (md5hex : String → String) (name : String) (size : Nat)
    (mime : Option String) (hn : name ≠ "") :
    computeSizeHash md5hex (some name) (some size) mime =
      some (md5hex (strLower name ++ "_" ++ toString size ++ "_" ++ mime.getD "")) ∧
    (∀ name2 : String, name2 ≠ "" → strLower name = strLower name2 →
      computeSizeHash md5hex (some name) (some size) mime =
        computeSizeHash md5hex (some name2) (some size) mime) ∧
    (size ≠ 0 →
      generate_size_hash md5hex (some name) (some size) mime =
        computeSizeHash md5hex (some name) (some size) mime) ∧
    generate_size_hash md5hex (some name) (some 0) mime = none := by
  refine ⟨?_, ?_, ?_, ?_⟩
  · simp [computeSizeHash, hn]
  · intro name2 hn2 hlow
    simp [computeSizeHash, hn, hn2, hlow]
  · intro hsz
    simp [computeSizeHash, generate_size_hash, hn, hsz]
  · simp [generate_size_hash]

/-- Witness for `compute_size_hash_formula_and_case_insensitive` at
`name = "Report.PDF"`, `size = 10`, `mime = "application/pdf"`. -/
theorem compute_size_hash_formula_witness :
    computeSizeHash (fun s => s) (some "Report.PDF") (some 10) (some "application/pdf") =
      some (strLower "Report.PDF" ++ "_" ++ toString 10 ++ "_" ++ "application/pdf") ∧
    computeSizeHash (fun s => s) (some "Report.PDF") (some 10) (some "application/pdf") =
      computeSizeHash (fun s => s) (some "REPORT.pdf") (some 10) (some "application/pdf") := by
  refine ⟨?_, ?_⟩
  · exact (compute_size_hash_formula_and_case_insensitive (fun s => s) "Report.PDF" 10
      (some "application/pdf") (by decide)).1
  · exact (compute_size_hash_formula_and_case_insensitive (fun s => s) "Report.PDF" 10
      (some "application/pdf") (by decide)).2.1 "REPORT.pdf" (by decide) (by decide)

/-- The change test of the update branch (main.py lines 994-1001): the
canonical compared field set is name, mime type, is_folder, size,
modified-at-source, content hash, web-view link, preview link. -/
def fieldsChanged (f : FileRecord) (c : CloudFile) : Bool :=
  decide (f.name ≠ c.name) || decide (f.mime_type ≠ c.mime_type) ||
  decide (f.is_folder ≠ c.is_folder.getD false) || decide (f.size ≠ c.size) ||
  decide (f.modified_at_source ≠ c.modified_at) ||
  decide (f.content_hash ≠ c.content_hash) ||
  decide (f.web_view_link ≠ c.web_view_link) ||
  decide (f.preview_link ≠ c.preview_link)

/-- The full field overwrite of the update branch (main.py lines 1003-1017):
every descriptor field is copied, `size_hash` falls back to the stored one
when the computed one is falsy, `updated_at` is refreshed and the record is
forced active. -/
def applyCloudData (md5hex : String → String) (f : FileRecord) (c : CloudFile)
    (now : Nat) : FileRecord :=
  { f with
    name := c.name
    path := c.path
    mime_type := c.mime_type
    is_folder := c.is_folder.getD false
    size := c.size
    created_at_source := c.created_at
    modified_at_source := c.modified_at
    download_link := c.download_link
    preview_link := c.preview_link
    web_view_link := c.web_view_link
    content_hash := c.content_hash
    size_hash := pyOrStr (computeSizeHash md5hex (some c.name) c.size c.mime_type) f.size_hash
    updated_at := now
    is_active := true }

/-- The creation branch (main.py lines 1021-1042): a fresh active
`FileMetadata` row built from the descriptor. -/
def newFileRecord (md5hex : String → String) (c : CloudFile) (now : Nat) :
    FileRecord :=
  { provider_file_id := c.provider_file_id
    name := c.name
    path := c.path
    mime_type := c.mime_type
    is_folder := c.is_folder.getD false
    size := c.size
    created_at_source := c.created_at
    modified_at_source := c.modified_at
    download_link := c.download_link
    preview_link := c.preview_link
    web_view_link := c.web_view_link
    content_hash := c.content_hash
    size_hash := computeSizeHash md5hex (some c.name) c.size c.mime_type
    is_active := true
    created_at := now
    updated_at := now }

/-- `existing_metadata.get(provider_file_id)`: the dict comprehension keeps
the last row per key, so lookup returns the last matching row. -/
def lookupLast (s : List FileRecord) (pid : String) : Option FileRecord :=
  (s.filter (fun f => decide (f.provider_file_id = pid))).getLast?

/-- In-place mutation of the dict entry for `pid`: rewrite the LAST row
whose `provider_file_id` is `pid` (that row is the dict value), leave
every other row untouched. -/
def updateLast (g : FileRecord → FileRecord) (pid : String) :
    List FileRecord → List FileRecord
  | [] => []
  | f :: rest =>
      if decide (∃ f2 ∈ rest, f2.provider_file_id = pid) then
        f :: updateLast g pid rest
      else if f.provider_file_id = pid then g f :: rest
      else f :: rest

/-- The per-descriptor loop of `sync_account_files` (main.py lines 970-1043).
State: the pre-existing rows `orig` (the rows reachable through
`existing_metadata`, mutated in place), the rows added with `db.add`
(`news`), the `current_cloud_file_ids` set (`seen`), and the number of row
writes performed so far (`w`: an update, an insert, or later a
deactivation each count one write). -/
def processFiles (md5hex : String → String) (now : Nat) :
    List FileRecord → List FileRecord → List String → Nat → List CloudFile →
    List FileRecord × List FileRecord × List String × Nat
  | orig, news, seen, w, [] => (orig, news, seen, w)
  | orig, news, seen, w, c :: rest =>
      match lookupLast orig c.provider_file_id with
      | some f =>
          if fieldsChanged f c then
            processFiles md5hex now
              (updateLast (fun f2 => applyCloudData md5hex f2 c now)
                c.provider_file_id orig)
              news (c.provider_file_id :: seen) (w + 1) rest
          else
            processFiles md5hex now orig news (c.provider_file_id :: seen) w rest
      | none =>
          processFiles md5hex now orig (news ++ [newFileRecord md5hex c now])
            (c.provider_file_id :: seen) (w + 1) rest

/-- The deactivation pass (main.py lines 1046-1050): iterate the
`existing_metadata` dict values (the last row per `provider_file_id`);
every active one whose id was not seen this run is flipped inactive with a
fresh `updated_at`. Rows shadowed in the dict by a later row with the same
id are not dict values and are never touched. -/
def deactivatePass (now : Nat) (seen : List String) :
    List FileRecord → List FileRecord × Nat
  | [] => ([], 0)
  | f :: rest =>
      if decide (∃ f2 ∈ rest, f2.provider_file_id = f.provider_file_id) then
        ((deactivatePass now seen rest).1.cons f, (deactivatePass now seen rest).2)
      else if decide (f.provider_file_id ∉ seen) && f.is_active then
        ({ f with is_active := false, updated_at := now } ::
            (deactivatePass now seen rest).1,
          (deactivatePass now seen rest).2 + 1)
      else
        (f :: (deactivatePass now seen rest).1, (deactivatePass now seen rest).2)

/-- One reconciliation of the rows `s0` of a storage account against a
remote listing `files` (main.py lines 956-1050): process every descriptor,
then deactivate vanished dict entries. Returns the resulting rows (original
positions first, inserted rows appended) and the number of row writes. -/
def runFileSync (md5hex : String → String) (s0 : List FileRecord)
    (files : List CloudFile) (now : Nat) : List FileRecord × Nat :=
  match processFiles md5hex now s0 [] [] 0 files with
  | (orig, news, seen, w) =>
      match deactivatePass now seen orig with
      | (orig2, dw) => (orig2 ++ news, w + dw)

/-- The shape of the value `sync_account_files` receives from
`provider_instance.list_files()`:
`invalid` is `None`, a non-dict, or a dict without a `"files"` key (the
line 950 gate returns early); `filesNonList` is a dict whose `"files"`
value is not a list (both loops are skipped, line 1052 branch);
`filesList` is a dict whose `"files"` value is a list. -/
inductive CloudFilesResponse where
  | invalid
  | filesNonList (tok : Option String)
  | filesList (files : List CloudFile) (tok : Option String)
  deriving Repr, DecidableEq

/-- The file-reconciliation part of `sync_account_files` (main.py lines
947-1055) as a function of the received listing value. -/
def syncFilesPhase (md5hex : String → String) (resp : CloudFilesResponse)
    (s0 : List FileRecord) (now : Nat) : List FileRecord × Nat :=
  match resp with
  | .invalid => (s0, 0)
  | .filesNonList _ => (s0, 0)
  | .filesList files _ => runFileSync md5hex s0 files now

/-- The storage bookkeeping columns of `StorageAccount` touched by the
quota step. -/
structure AccountQuota where
  storage_used : Nat
  storage_limit : Nat
  deriving Repr, DecidableEq

/-- The dict returned by a provider `get_storage_quota`, as read by the
engine with `.get("total")` and `.get("used")` (absent keys are `none`). -/
structure QuotaInfo where
  total : Option Nat
  used : Option Nat
  deriving Repr, DecidableEq

/-- `total_used_bytes` fallback query (main.py lines 1070-1076): sum of
sizes of active, non-folder rows of the account (`or 0` on empty). -/
def sumActiveFileSizes (files : List FileRecord) : Nat :=
  (files.filter (fun f => !f.is_folder && f.is_active)).foldl
    (fun n f => n + f.size.getD 0) 0

/-- The quota step of `sync_account_files` (main.py lines 1057-1077).
`call` is the behaviour of `await provider_instance.get_storage_quota()`:
`.error` when the awaited call raised (the `except` branch recomputes
usage from the local rows), `.ok none` when it returned a falsy value
(empty dict or `None`: nothing is updated), `.ok (some q)` when it
returned a truthy dict. `if quot_info.get("total"):` is Python truthiness,
so a missing or zero total leaves the limit alone, while
`if quot_info.get("used") is not None:` accepts a zero. -/
def applyQuotaUpdate (acct : AccountQuota)
    (call : Except Unit (Option QuotaInfo)) (files : List FileRecord) :
    AccountQuota :=
  match call with
  | .error _ => { acct with storage_used := sumActiveFileSizes files }
  | .ok none => acct
  | .ok (some q) =>
      let acct1 :=
        if q.total.getD 0 ≠ 0 then { acct with storage_limit := q.total.getD 0 }
        else acct
      if q.used.isSome then { acct1 with storage_used := q.used.getD 0 } else acct1

/-- The whole `sync_account_files` body after the listing call (main.py
lines 949-1080): file reconciliation, then the quota step over the
post-reconciliation rows. On an `invalid` listing the function returns at
line 952 before any write and before the quota step. -/
def sync_account_files (md5hex : String → String) (resp : CloudFilesResponse)
    (s0 : List FileRecord) (now : Nat) (quotaCall : Except Unit (Option QuotaInfo))
    (acct : AccountQuota) : List FileRecord × Nat × AccountQuota :=
  match resp with
  | .invalid => (s0, 0, acct)
  | _ =>
      match syncFilesPhase md5hex resp s0 now with
      | (rows, w) => (rows, w, applyQuotaUpdate acct quotaCall rows)

/-- Outcome of one HTTP call made through `make_request`, seen from a
provider method: a parsed 200 body, a non-200 response, or a raised
exception (network failure, or the 401 handling in `make_request`). -/
inductive ApiOutcome (α : Type) where
  | success (body : α)
  | httpError (status : Nat)
  | exn
  deriving Repr, DecidableEq

/-- The uniform `list_files` return shape
`{'files': ..., 'next_page_token': ...}`; `files = none` models a `None`
value or an absent key. -/
structure ListFilesResult where
  files : Option (List CloudFile)
  next_page_token : Option String
  deriving Repr, DecidableEq

/-- How `sync_account_files` classifies a `list_files` dict: the `"files"`
key is always present in the adapters, with either a list or nothing
usable in it. -/
def toCloudFilesResponse (r : ListFilesResult) : CloudFilesResponse :=
  match r.files with
  | some l => .filesList l r.next_page_token
  | none => .filesNonList r.next_page_token

/-- One raw item of a Drive `files.list` response body, with the fields the
adapter reads. `size` is modelled already parsed: Drive sends it as a
decimal string and the adapter keeps `None` when the key is falsy. -/
structure DriveRawFile where
  id : String
  name : String
  parents : List String
  mimeType : Option String
  size : Option Nat
  createdTime : Option Nat
  modifiedTime : Option Nat
  webViewLink : Option String
  thumbnailLink : Option String
  md5Checksum : Option String
  webContentLink : Option String
  deriving Repr, DecidableEq

/-- A parsed 200 body of Drive `files.list`. -/
structure DriveListBody where
  files : List DriveRawFile
  nextPageToken : Option String
  deriving Repr, DecidableEq

/-- `GoogleDriveProvider.normalize_google_drive_metadata`
(google_drive.py lines 226-254). `resolvePath` stands for the
`get_file_path` sub-request (it returns `"/"` on failure or no parent).
The normalized dict carries no `is_folder` key. The preview link, download
link and content hash are only populated in `full_access` mode. -/
def normalizeGoogleDriveMetadata (mode : String)
    (resolvePath : List String → String) (raw : DriveRawFile) : CloudFile :=
  { provider_file_id := raw.id
    name := raw.name
    path := some (resolvePath raw.parents)
    mime_type := raw.mimeType
    is_folder := none
    size := raw.size
    created_at := raw.createdTime
    modified_at := raw.modifiedTime
    preview_link := if mode = "full_access" then raw.thumbnailLink else none
    download_link := if mode = "full_access" then raw.webContentLink else none
    web_view_link := raw.webViewLink
    content_hash := if mode = "full_access" then raw.md5Checksum else none }

/-- `GoogleDriveProvider.list_files` (google_drive.py lines 139-181): on a
200 response, folders are skipped and the rest normalized; on ANY non-200
response or raised exception the adapter returns
`{'files': [], 'next_page_token': None}` - an empty list, not `None`. -/
def googleDriveListFiles (mode : String) (resolvePath : List String → String)
    (outcome : ApiOutcome DriveListBody) : ListFilesResult :=
  match outcome with
  | .success body =>
      { files := some (((body.files.filter
          (fun raw => decide (raw.mimeType ≠ some "application/vnd.google-apps.folder"))).map
            (normalizeGoogleDriveMetadata mode resolvePath)))
        next_page_token := body.nextPageToken }
  | .httpError _ => { files := some [], next_page_token := none }
  | .exn => { files := some [], next_page_token := none }

/-- `GoogleDriveProvider.get_storage_quota` (google_drive.py lines
280-302): on a 200 response the `storageQuota` numbers (defaulted to 0),
and on ANY non-200 response or raised exception the dict
`{'total': 0, 'used': 0, 'remaining': 0}` - the failure is swallowed and
the caller receives a truthy dict with a non-`None` zero usage. -/
def googleDriveGetStorageQuota (outcome : ApiOutcome QuotaInfo) : QuotaInfo :=
  match outcome with
  | .success q => { total := some (q.total.getD 0), used := some (q.used.getD 0) }
  | .httpError _ => { total := some 0, used := some 0 }
  | .exn => { total := some 0, used := some 0 }

/-- One entry of a Dropbox `files_list_folder` result: a folder, a file
(with provider payload `α`), or some other metadata class (skipped by the
`isinstance` checks). -/
inductive DropboxEntry (α : Type) where
  | folder
  | file (meta : α)
  | other
  deriving Repr, DecidableEq

/-- A Dropbox `files_list_folder` / `..._continue` result. -/
structure DropboxPage (α : Type) where
  entries : List (DropboxEntry α)
  cursor : String
  has_more : Bool
  deriving Repr, DecidableEq

/-- Dropbox `list_files` (dropbox_provider.py lines 163-200). The SDK is
call-and-raise, so the outcome is success or exception. `normalize` stands
for `normalize_dropbox_metadata` (it issues its own API calls); a `none`
is a normalization error, which the loop logs and skips. On a raised
exception the adapter returns `{'files': [], 'next_page_token': None}`. -/
def dropboxListFiles {α : Type} (normalize : α → Option CloudFile)
    (outcome : Except Unit (DropboxPage α)) : ListFilesResult :=
  match outcome with
  | .ok page =>
      { files := some (page.entries.filterMap (fun e =>
          match e with
          | .folder => none
          | .file m => normalize m
          | .other => none))
        next_page_token := if page.has_more then some page.cursor else none }
  | .error _ => { files := some [], next_page_token := none }

/-- One item of a Microsoft Graph `children` response: `folder` is whether
the item carries a folder facet (`'folder' in item`), `payload` is the
rest of the item. -/
structure OneDriveItem (α : Type) where
  folder : Bool
  payload : α
  deriving Repr, DecidableEq

/-- A parsed 200 body of a Graph `children` request. -/
structure OneDrivePage (α : Type) where
  value : List (OneDriveItem α)
  nextLink : Option String
  deriving Repr, DecidableEq

/-- OneDrive `list_files` (onedrive_provider.py lines 172-209): on a 200
response folders are skipped and the rest normalized
(`normalize_onedrive_metadata`, abstracted as `normalize`); on a non-200
response or a raised exception the adapter returns
`{'files': [], 'next_page_token': None}`. -/
def oneDriveListFiles {α : Type} (normalize : α → CloudFile)
    (outcome : ApiOutcome (OneDrivePage α)) : ListFilesResult :=
  match outcome with
  | .success page =>
      { files := some ((page.value.filter (fun it => !it.folder)).map
          (fun it => normalize it.payload))
        next_page_token := page.nextLink }
  | .httpError _ => { files := some [], next_page_token := none }
  | .exn => { files := some [], next_page_token := none }

/-- A previously synced, currently active row used as concrete input. -/
def exActiveRecord : FileRecord :=
  { provider_file_id := "a", name := "x.png", path := some "/",
    mime_type := some "image/png", is_folder := false, size := some 100,
    created_at_source := some 1, modified_at_source := some 2,
    download_link := none, preview_link := none,
    web_view_link := some "https://x", content_hash := some "h1",
    size_hash := some "sh1", is_active := true, created_at := 3,
    updated_at := 3 }

/-- A filler normalized descriptor for instantiating adapter models. -/
def exDescriptor : CloudFile :=
  { provider_file_id := "d", name := "y.txt", path := some "/",
    mime_type := some "text/plain", is_folder := none, size := some 5,
    created_at := none, modified_at := none, download_link := none,
    preview_link := none, web_view_link := none, content_hash := none }

/-- C1: the deletion-safety gate is defeated by the Google Drive adapter.
When the Drive `files.list` call fails (here an HTTP 500; the exception
branch is identical), `list_files` swallows the failure and returns
`{'files': [], 'next_page_token': None}`. That dict passes the engine
null-check at main.py line 950 unscathed, the empty list enters the
reconciliation loop, and the deactivation pass then marks every
previously-active row of the account inactive: one write flips
`exActiveRecord` to `is_active = false` in a run whose remote listing
call failed. (The quota step of the same run also zeroes the stored
usage, see the C7 theorem.) -/
theorem sync_deactivates_on_failed_google_listing :
    sync_account_files (fun s => s)
      (toCloudFilesResponse (googleDriveListFiles "full_access"
        (fun _ => "/") (.httpError 500)))
      [exActiveRecord] 7
      (.ok (some (googleDriveGetStorageQuota (.httpError 500))))
      { storage_used := 100, storage_limit := 1000 } =
    ([{ exActiveRecord with is_active := false, updated_at := 7 }], 1,
      { storage_used := 0, storage_limit := 1000 }) := by
  decide

/-- C2: all three cited adapters map a failed provider call to
`files=[]`, byte-for-byte identical to the value they return for a
genuinely empty listing, so `files=None`/absent never happens and the
engine cannot tell a provider error from an empty account. -/
theorem adapters_return_empty_list_on_provider_error :
    googleDriveListFiles "metadata" (fun _ => "/") (.httpError 500) =
      { files := some [], next_page_token := none } ∧
    googleDriveListFiles "metadata" (fun _ => "/") .exn =
      { files := some [], next_page_token := none } ∧
    googleDriveListFiles "metadata" (fun _ => "/")
        (.success { files := [], nextPageToken := none }) =
      googleDriveListFiles "metadata" (fun _ => "/") (.httpError 500) ∧
    dropboxListFiles (fun _ : Unit => none) (.error ()) =
      { files := some [], next_page_token := none } ∧
    dropboxListFiles (fun _ : Unit => none)
        (.ok { entries := [], cursor := "c", has_more := false }) =
      dropboxListFiles (fun _ : Unit => none) (.error ()) ∧
    oneDriveListFiles (fun _ : Unit => exDescriptor) (.httpError 500) =
      { files := some [], next_page_token := none } ∧
    oneDriveListFiles (fun _ : Unit => exDescriptor) .exn =
      { files := some [], next_page_token := none } ∧
    oneDriveListFiles (fun _ : Unit => exDescriptor)
        (.success { value := [], nextLink := none }) =
      oneDriveListFiles (fun _ : Unit => exDescriptor) .exn := by
  decide

/-- An active, non-folder row of 777 bytes used as concrete input. -/
def exFile777 : FileRecord :=
  { exActiveRecord with
    provider_file_id := "b"
    name := "big.bin"
    mime_type := some "application/octet-stream"
    size := some 777
    content_hash := none
    size_hash := none }

/-- C7: when the Drive quota call fails, `get_storage_quota` swallows the
failure and returns `{'total': 0, 'used': 0, 'remaining': 0}`. The engine
receives a truthy dict whose `used` is the non-`None` value `0`, so it
sets `storage_used := 0` instead of entering the `except` fallback that
would have recomputed 777 from the local rows; the limit is left alone
because `0` is falsy. The last conjunct shows the adapter returns a dict
with a non-`None` `used` for EVERY outcome, so the engine fallback branch
is unreachable through this adapter. -/
theorem failed_quota_fetch_zeroes_usage :
    applyQuotaUpdate { storage_used := 5000, storage_limit := 9999 }
        (.ok (some (googleDriveGetStorageQuota (.httpError 503)))) [exFile777] =
      { storage_used := 0, storage_limit := 9999 } ∧
    sumActiveFileSizes [exFile777] = 777 ∧
    applyQuotaUpdate { storage_used := 5000, storage_limit := 9999 }
        (.error ()) [exFile777] =
      { storage_used := 777, storage_limit := 9999 } ∧
    ∀ outcome : ApiOutcome QuotaInfo,
      (googleDriveGetStorageQuota outcome).used.isSome = true := by
  refine ⟨by decide, by decide, by decide, ?_⟩
  intro outcome
  cases outcome <;> rfl

/-- The environment of one `CloudStorageProvider.make_request` call
(base.py lines 118-167): the status of the first response, whether the
instance holds a refresh token, whether `refresh_access_token()` returns
`True`, and the status of the response to the one retried request. -/
structure RequestEnv where
  first_status : Nat
  has_refresh_token : Bool
  refresh_succeeds : Bool
  retry_status : Nat
  deriving Repr, DecidableEq

/-- What `make_request` produces: the returned `httpx.Response` (any
status, including non-200 ones - callers inspect it), or a raised
exception with its message. -/
inductive RequestOutcome where
  | response (status : Nat)
  | failure (msg : String)
  deriving Repr, DecidableEq

/-- Call counts observable during one `make_request`: HTTP attempts of the
wrapped request and invocations of `refresh_access_token`. -/
structure RequestTrace where
  attempts : Nat
  refresh_calls : Nat
  deriving Repr, DecidableEq

/-- `CloudStorageProvider.make_request` (base.py lines 118-167). A 401
first response with a refresh token triggers exactly one
`refresh_access_token()`; on success the original request is retried
exactly once and a second 401 raises; a failed refresh raises without
retrying; a 401 without a refresh token raises immediately. Any other
first status is returned as-is. -/
def make_request (env : RequestEnv) : RequestOutcome × RequestTrace :=
  if env.first_status = 401 then
    if env.has_refresh_token then
      if env.refresh_succeeds then
        if env.retry_status = 401 then
          (.failure "Refreshed token is still unauthorized.",
            { attempts := 2, refresh_calls := 1 })
        else
          (.response env.retry_status, { attempts := 2, refresh_calls := 1 })
      else
        (.failure "Failed to refresh access token.",
          { attempts := 1, refresh_calls := 1 })
    else
      (.failure "Access token unauthorized and no refresh token available.",
        { attempts := 1, refresh_calls := 0 })
  else
    (.response env.first_status, { attempts := 1, refresh_calls := 0 })

/-- C8: token-refresh-once. For every request environment the refresh
procedure runs at most once and the request is attempted at most twice;
a double 401 with a refresh token present yields exactly one refresh, one
retry and a terminal failure; a 401 with no refresh token fails
immediately with zero refreshes and no retry; and a successful refresh
leads to exactly one retry whose non-401 response is returned. -/
theorem make_request_refreshes_at_most_once (env : RequestEnv) :
    (make_request env).2.refresh_calls ≤ 1 ∧
    (make_request env).2.attempts ≤ 2 ∧
    (env.first_status = 401 → env.has_refresh_token = true →
      env.refresh_succeeds = true → env.retry_status = 401 →
      make_request env =
        (.failure "Refreshed token is still unauthorized.",
          { attempts := 2, refresh_calls := 1 })) ∧
    (env.first_status = 401 → env.has_refresh_token = false →
      make_request env =
        (.failure "Access token unauthorized and no refresh token available.",
          { attempts := 1, refresh_calls := 0 })) ∧
    (env.first_status = 401 → env.has_refresh_token = true →
      env.refresh_succeeds = true → env.retry_status ≠ 401 →
      make_request env =
        (.response env.retry_status, { attempts := 2, refresh_calls := 1 })) := by
  obtain ⟨fs, hrt, rs, rts⟩ := env
  refine ⟨?_, ?_, ?_, ?_, ?_⟩ <;>
    simp only [make_request] <;>
    split <;> (try split) <;> (try split) <;> (try split) <;> simp_all

/-- Witness for `make_request_refreshes_at_most_once` at the double-401
environment and at the no-refresh-token environment. -/
theorem make_request_refreshes_witness :
    make_request
        { first_status := 401
          has_refresh_token := true
          refresh_succeeds := true
          retry_status := 401 } =
      (.failure "Refreshed token is still unauthorized.",
        { attempts := 2, refresh_calls := 1 }) ∧
    make_request
        { first_status := 401
          has_refresh_token := false
          refresh_succeeds := true
          retry_status := 200 } =
      (.failure "Access token unauthorized and no refresh token available.",
        { attempts := 1, refresh_calls := 0 }) := by
  constructor
  · exact (make_request_refreshes_at_most_once
      { first_status := 401
        has_refresh_token := true
        refresh_succeeds := true
        retry_status := 401 }).2.2.1
      rfl rfl rfl rfl
  · exact (make_request_refreshes_at_most_once
      { first_status := 401
        has_refresh_token := false
        refresh_succeeds := true
        retry_status := 200 }).2.2.2.1
      rfl rfl

/-- What the `POST /api/storage-accounts/{id}/sync` handler decides
(main.py lines 1088-1113): 404 when the account does not belong to the
user, otherwise `background_tasks.add_task(sync_account_files, ...)`. -/
inductive SyncTriggerDecision where
  | notFound
  | scheduled
  deriving Repr, DecidableEq

/-- The `sync_account` endpoint logic (main.py lines 1088-1113) as a
function of the account lookup result and of the set of account ids with
an in-flight sync run. The handler never consults any in-flight-run
state - there is no `running`-SyncRun check, no lock and no queue; the
`SyncLog` table exists in models.py but `sync_account_files` never writes
it - so the decision ignores `inflight` entirely. -/
def sync_account_trigger (accountFound : Bool) (inflight : List Nat)
    (account_id : Nat) : SyncTriggerDecision :=
  if accountFound then .scheduled else .notFound

/-- C10, as stated, is false: a second trigger for account 7 while a run
for account 7 is already in flight is neither rejected nor queued - the
handler schedules another concurrent background run. -/
theorem second_sync_trigger_is_scheduled :
    sync_account_trigger true [7] 7 = .scheduled := by
  decide

/-- C10 (amended): the sync trigger decision is independent of the
in-flight run set - any existing account is scheduled immediately, so the
endpoint enforces no per-account lease whatsoever. -/
theorem sync_trigger_ignores_inflight_runs (accountFound : Bool)
    (inflight : List Nat) (account_id : Nat) :
    sync_account_trigger accountFound inflight account_id =
      sync_account_trigger accountFound [] account_id ∧
    (accountFound = true →
      sync_account_trigger accountFound inflight account_id = .scheduled) := by
  constructor
  · rfl
  · intro h
    simp [sync_account_trigger, h]

/-- Witness for `sync_trigger_ignores_inflight_runs` with a busy in-flight
set. -/
theorem sync_trigger_ignores_inflight_witness :
    sync_account_trigger true [1, 2, 3] 2 = .scheduled := by
  exact (sync_trigger_ignores_inflight_runs true [1, 2, 3] 2).2 rfl

/-- A `FileMetadata` row as seen by `get_duplicates` (main.py lines
1345-1459), restricted to the columns that query reads; `account_mode` is
the joined `StorageAccount.mode` and the rows are those of one user.
`name` is a non-nullable column, so the pass-3 `name.isnot(None)` filter
is vacuous. -/
structure DupFile where
  id : Nat
  name : String
  size : Option Nat
  is_folder : Bool
  is_active : Bool
  content_hash : Option String
  size_hash : Option String
  account_mode : String
  deriving Repr, DecidableEq

/-- `schemas.DuplicateGroupResponse` as filled by `get_duplicates`. -/
structure DuplicateGroupResponse where
  hash : String
  count : Nat
  files : List DupFile
  deriving Repr, DecidableEq

/-- `apply_mode_filter` (main.py lines 1362-1370): with a mode the query
joins `StorageAccount` and keeps rows of accounts in that mode. -/
def modeOk (mode : Option String) (f : DupFile) : Bool :=
  match mode with
  | none => true
  | some m => decide (f.account_mode = m)

/-- Lexicographic comparison on code points, the order used to model
`ORDER BY name` (core `String` comparison is not kernel reducible). -/
def charListLe : List Char → List Char → Bool
  | [], _ => true
  | _ :: _, [] => false
  | c :: cs, d :: ds =>
      if c.toNat < d.toNat then true
      else if d.toNat < c.toNat then false
      else charListLe cs ds

/-- Name order for the `ORDER BY name` model. -/
def nameLe (a b : String) : Bool := charListLe a.data b.data

/-- Insertion step of the `ORDER BY name` model. -/
def insertByName (f : DupFile) : List DupFile → List DupFile
  | [] => [f]
  | g :: rest =>
      if nameLe f.name g.name then f :: g :: rest else g :: insertByName f rest

/-- `ORDER BY FileMetadata.name` as a stable insertion sort. -/
def sortByName : List DupFile → List DupFile
  | [] => []
  | f :: rest => insertByName f (sortByName rest)

/-- `GROUP BY key HAVING COUNT(id) > 1` over a filtered row set: the
distinct present key values with at least two matching rows. -/
def groupKeyHashes (getKey : DupFile → Option String) (base : List DupFile) :
    List String :=
  (base.filterMap getKey).dedup.filter
    (fun h => decide (1 < (base.filter (fun f => decide (getKey f = some h))).length))

/-- The hash values driving pass 1 (main.py lines 1373-1381): active rows
with a content hash, mode-filtered, grouped by content hash. -/
def contentKeys (db : List DupFile) (mode : Option String) : List String :=
  groupKeyHashes (fun f => f.content_hash)
    (db.filter (fun f => f.content_hash.isSome && f.is_active && modeOk mode f))

/-- The member re-query of pass 1 (main.py lines 1385-1390): active rows
with that content hash, mode-filtered, ordered by name. -/
def contentMembers (db : List DupFile) (mode : Option String) (h : String) :
    List DupFile :=
  sortByName (db.filter
    (fun f => decide (f.content_hash = some h) && f.is_active && modeOk mode f))

/-- The hash values driving pass 2 (main.py lines 1402-1410). -/
def sizeKeys (db : List DupFile) (mode : Option String) : List String :=
  groupKeyHashes (fun f => f.size_hash)
    (db.filter (fun f => f.size_hash.isSome && f.is_active && modeOk mode f))

/-- The member re-query of pass 2 (main.py lines 1414-1419). -/
def sizeMembers (db : List DupFile) (mode : Option String) (h : String) :
    List DupFile :=
  sortByName (db.filter
    (fun f => decide (f.size_hash = some h) && f.is_active && modeOk mode f))

/-- The emit loop shared by passes 1 and 2 (main.py lines 1383-1399 and
1412-1428): for each grouped hash, re-query the members, drop the ones
already claimed in `seen_file_ids`, and emit the group only if more than
one member is left, claiming all its members. -/
def emitGroups (memberQuery : String → List DupFile) :
    List DuplicateGroupResponse → List Nat → List String →
    List DuplicateGroupResponse × List Nat
  | gs, seen, [] => (gs, seen)
  | gs, seen, h :: keys =>
      let group_files := (memberQuery h).filter (fun f => decide (f.id ∉ seen))
      if 1 < group_files.length then
        emitGroups memberQuery
          (gs ++ [{ hash := h, count := group_files.length, files := group_files }])
          (seen ++ group_files.map (fun f => f.id)) keys
      else emitGroups memberQuery gs seen keys

/-- The pass-3 grouping key `(f.name.lower(), f.size)` (main.py line 1444);
rows reach it only with a non-`None` size. -/
def nameSizeKey (f : DupFile) : String × Nat :=
  (strLower f.name, f.size.getD 0)

/-- The pass-3 base query (main.py lines 1431-1441): active rows with name
and size present, mode-filtered, ordered by name. -/
def nameSizeRows (db : List DupFile) (mode : Option String) : List DupFile :=
  sortByName (db.filter (fun f => f.size.isSome && f.is_active && modeOk mode f))

/-- The pass-3 emit loop (main.py lines 1447-1457): the `groups` dict maps
each key (in first-appearance order) to the unclaimed rows with that key;
every bucket with more than one row is emitted under the synthetic hash
`name_size::<name>::<size>`. -/
def emitNameSizeGroups (unclaimed : List DupFile) :
    List DuplicateGroupResponse → List Nat → List (String × Nat) →
    List DuplicateGroupResponse × List Nat
  | gs, seen, [] => (gs, seen)
  | gs, seen, k :: keys =>
      let files_in_group := unclaimed.filter (fun f => decide (nameSizeKey f = k))
      if 1 < files_in_group.length then
        emitNameSizeGroups unclaimed
          (gs ++ [{ hash := "name_size::" ++ k.1 ++ "::" ++ toString k.2,
                    count := files_in_group.length, files := files_in_group }])
          (seen ++ files_in_group.map (fun f => f.id)) keys
      else emitNameSizeGroups unclaimed gs seen keys

/-- `GET /api/duplicates` (main.py lines 1345-1459): three passes -
content hash, then size hash, then (lowercase name, size) - each skipping
rows claimed by an earlier pass through the shared `seen_file_ids` set.
No pass filters on `is_folder`. -/
def get_duplicates (db : List DupFile) (mode : Option String) :
    List DuplicateGroupResponse :=
  let p1 := emitGroups (contentMembers db mode) [] [] (contentKeys db mode)
  let p2 := emitGroups (sizeMembers db mode) p1.1 p1.2 (sizeKeys db mode)
  let unclaimed := (nameSizeRows db mode).filter (fun f => decide (f.id ∉ p2.2))
  (emitNameSizeGroups unclaimed p2.1 p2.2 ((unclaimed.map nameSizeKey).dedup)).1

/-- An active folder row carrying a content hash. -/
def exFolderRow1 : DupFile :=
  { id := 1, name := "docs", size := none, is_folder := true,
    is_active := true, content_hash := some "h", size_hash := none,
    account_mode := "full_access" }

/-- A second active folder row with the same content hash. -/
def exFolderRow2 : DupFile :=
  { exFolderRow1 with id := 2, name := "docs-copy" }

/-- C6, as stated, is false: `get_duplicates` applies no `is_folder`
filter in any pass, so two active folder rows sharing a content hash are
emitted as a tier-1 duplicate group whose members are folders. -/
theorem get_duplicates_groups_folders :
    get_duplicates [exFolderRow1, exFolderRow2] none =
      [{ hash := "h", count := 2, files := [exFolderRow1, exFolderRow2] }] ∧
    exFolderRow1.is_folder = true := by
  decide

/-- Two emitted groups have no member id in common. -/
def idDisjoint (g1 g2 : DuplicateGroupResponse) : Prop :=
  ∀ f1 ∈ g1.files, ∀ f2 ∈ g2.files, f1.id ≠ f2.id

theorem insertByName_perm (f : DupFile) (l : List DupFile) :
    (insertByName f l).Perm (f :: l) := by
  induction l with
  | nil => simp [insertByName]
  | cons g rest ih =>
      by_cases h : nameLe f.name g.name = true
      · simp [insertByName, h]
      · simp only [insertByName, h, if_false, Bool.not_eq_true] at *
        exact (ih.cons g).trans (List.Perm.swap f g rest)

theorem sortByName_perm (l : List DupFile) : (sortByName l).Perm l := by
  induction l with
  | nil => simp [sortByName]
  | cons f rest ih =>
      exact (insertByName_perm f (sortByName rest)).trans (ih.cons f)

theorem mem_sortByName {a : DupFile} {l : List DupFile} :
    a ∈ sortByName l ↔ a ∈ l :=
  (sortByName_perm l).mem_iff

/-- Every member of every group emitted by `emitGroups` satisfies any
property enjoyed by all member-query results and by the members of the
groups already emitted. -/
theorem emitGroups_members (memberQuery : String → List DupFile)
    (P : DupFile → Prop) (hQ : ∀ h f, f ∈ memberQuery h → P f) :
    ∀ (keys : List String) (gs : List DuplicateGroupResponse) (seen : List Nat),
      (∀ g ∈ gs, ∀ f ∈ g.files, P f) →
      ∀ g ∈ (emitGroups memberQuery gs seen keys).1, ∀ f ∈ g.files, P f := by
  intro keys
  induction keys with
  | nil =>
      intro gs seen hgs
      simpa [emitGroups] using hgs
  | cons h keys ih =>
      intro gs seen hgs
      simp only [emitGroups]
      split
      · refine ih _ _ ?_
        intro g hg f hf
        rcases List.mem_append.mp hg with hg1 | hg2
        · exact hgs g hg1 f hf
        · have hgeq := List.mem_singleton.mp hg2
          subst hgeq
          exact hQ h f (List.mem_of_mem_filter hf)
      · exact ih _ _ hgs

/-- Every member of every group emitted by `emitNameSizeGroups` satisfies
any property enjoyed by all unclaimed rows and by the members of the
groups already emitted. -/
theorem emitNameSizeGroups_members (unclaimed : List DupFile)
    (P : DupFile → Prop) (hU : ∀ f ∈ unclaimed, P f) :
    ∀ (keys : List (String × Nat)) (gs : List DuplicateGroupResponse)
      (seen : List Nat),
      (∀ g ∈ gs, ∀ f ∈ g.files, P f) →
      ∀ g ∈ (emitNameSizeGroups unclaimed gs seen keys).1, ∀ f ∈ g.files, P f := by
  intro keys
  induction keys with
  | nil =>
      intro gs seen hgs
      simpa [emitNameSizeGroups] using hgs
  | cons k keys ih =>
      intro gs seen hgs
      simp only [emitNameSizeGroups]
      split
      · refine ih _ _ ?_
        intro g hg f hf
        rcases List.mem_append.mp hg with hg1 | hg2
        · exact hgs g hg1 f hf
        · have hgeq := List.mem_singleton.mp hg2
          subst hgeq
          exact hU f (List.mem_of_mem_filter hf)
      · exact ih _ _ hgs

/-- C6 (amended): every member of every emitted duplicate group is an
active row (all three passes filter `is_active == True`), but no pass
excludes folders: `is_folder` is never consulted, as the counterexample
`get_duplicates_groups_folders` shows. -/
theorem duplicate_group_members_active (db : List DupFile)
    (mode : Option String) (g : DuplicateGroupResponse)
    (hg : g ∈ get_duplicates db mode) (f : DupFile) (hf : f ∈ g.files) :
    f.is_active = true := by
  have base : ∀ l : List DupFile, ∀ p : DupFile → Bool,
      ∀ x ∈ sortByName (l.filter (fun r => p r && r.is_active && modeOk mode r)),
      x.is_active = true := by
    intro l p x hx
    have hx2 := List.mem_filter.mp (mem_sortByName.mp hx)
    have hx3 := hx2.2
    simp only [Bool.and_eq_true] at hx3
    exact hx3.1.2
  have h1 := emitGroups_members (contentMembers db mode)
    (fun r => r.is_active = true)
    (fun h r hr => base db _ r hr)
    (contentKeys db mode) [] [] (by intro g2 hg2; cases hg2)
  have h2 := emitGroups_members (sizeMembers db mode)
    (fun r => r.is_active = true)
    (fun h r hr => base db _ r hr)
    (sizeKeys db mode)
    (emitGroups (contentMembers db mode) [] [] (contentKeys db mode)).1
    (emitGroups (contentMembers db mode) [] [] (contentKeys db mode)).2
    h1
  have h3 : ∀ x ∈ (nameSizeRows db mode).filter
      (fun r => decide (r.id ∉ (emitGroups (sizeMembers db mode)
        (emitGroups (contentMembers db mode) [] [] (contentKeys db mode)).1
        (emitGroups (contentMembers db mode) [] [] (contentKeys db mode)).2
        (sizeKeys db mode)).2)), x.is_active = true := by
    intro x hx
    exact base db _ x (List.mem_of_mem_filter hx)
  exact emitNameSizeGroups_members _ (fun r => r.is_active = true) h3 _ _ _ h2 g hg f hf

/-- An active non-folder row with a content hash, for witnesses. -/
def exDupRow1 : DupFile :=
  { id := 11, name := "x.png", size := some 100, is_folder := false,
    is_active := true, content_hash := some "h1", size_hash := none,
    account_mode := "full_access" }

/-- A second active non-folder row with the same content hash. -/
def exDupRow2 : DupFile :=
  { exDupRow1 with id := 12, name := "y.png" }

/-- Witness for `duplicate_group_members_active` on a concrete two-row
catalog. -/
theorem duplicate_group_members_active_witness :
    exDupRow1.is_active = true := by
  refine duplicate_group_members_active [exDupRow1, exDupRow2] none
    { hash := "h1", count := 2, files := [exDupRow1, exDupRow2] } (by decide)
    exDupRow1 (by decide)

/-- Appending a freshly emitted group whose member ids are new preserves
the claims invariant: all members of all groups are claimed, and distinct
groups are id-disjoint. -/
theorem appendGroup_inv (gs : List DuplicateGroupResponse) (seen : List Nat)
    (g0 : DuplicateGroupResponse) (newIds : List Nat)
    (hfiles : ∀ f ∈ g0.files, f.id ∈ newIds ∧ f.id ∉ seen)
    (h1 : ∀ g ∈ gs, ∀ f ∈ g.files, f.id ∈ seen)
    (h2 : List.Pairwise idDisjoint gs) :
    (∀ g ∈ gs ++ [g0], ∀ f ∈ g.files, f.id ∈ seen ++ newIds) ∧
      List.Pairwise idDisjoint (gs ++ [g0]) := by
  constructor
  · intro g hg f hf
    rcases List.mem_append.mp hg with hg1 | hg2
    · exact List.mem_append_left _ (h1 g hg1 f hf)
    · have hgeq := List.mem_singleton.mp hg2
      subst hgeq
      exact List.mem_append_right _ (hfiles f hf).1
  · refine List.pairwise_append.mpr ⟨h2, List.pairwise_singleton _ _, ?_⟩
    intro a2 ha2 b2 hb2
    have hbeq := List.mem_singleton.mp hb2
    subst hbeq
    intro f1 hf1 f2 hf2 heq
    exact (hfiles f2 hf2).2 (heq ▸ h1 a2 ha2 f1 hf1)

/-- `emitGroups` keeps claimed ids claimed, claims every member it emits,
and keeps distinct groups id-disjoint: a new group only takes members
whose id is not in `seen_file_ids`, while all previous members are. -/
theorem emitGroups_claims (memberQuery : String → List DupFile) :
    ∀ (keys : List String) (gs : List DuplicateGroupResponse) (seen : List Nat),
      (∀ g ∈ gs, ∀ f ∈ g.files, f.id ∈ seen) →
      List.Pairwise idDisjoint gs →
      (∀ x ∈ seen, x ∈ (emitGroups memberQuery gs seen keys).2) ∧
      (∀ g ∈ (emitGroups memberQuery gs seen keys).1, ∀ f ∈ g.files,
        f.id ∈ (emitGroups memberQuery gs seen keys).2) ∧
      List.Pairwise idDisjoint (emitGroups memberQuery gs seen keys).1 := by
  intro keys
  induction keys with
  | nil =>
      intro gs seen h1 h2
      exact ⟨fun x hx => hx, h1, h2⟩
  | cons h keys ih =>
      intro gs seen h1 h2
      simp only [emitGroups]
      split
      · have hfiles : ∀ f ∈ ((memberQuery h).filter
            (fun f => decide (f.id ∉ seen))),
            f.id ∈ ((memberQuery h).filter
              (fun f => decide (f.id ∉ seen))).map (fun f => f.id) ∧
            f.id ∉ seen := by
          intro f hf
          exact ⟨List.mem_map_of_mem (fun f => f.id) hf,
            of_decide_eq_true (List.mem_filter.mp hf).2⟩
        obtain ⟨inv1, inv2⟩ := appendGroup_inv gs seen
          ⟨h, ((memberQuery h).filter (fun f => decide (f.id ∉ seen))).length,
            (memberQuery h).filter (fun f => decide (f.id ∉ seen))⟩
          (((memberQuery h).filter (fun f => decide (f.id ∉ seen))).map
            (fun f => f.id))
          hfiles h1 h2
        obtain ⟨m, a, b⟩ := ih _ _ inv1 inv2
        exact ⟨fun x hx => m x (List.mem_append_left _ hx), a, b⟩
      · exact ih gs seen h1 h2

/-- `emitNameSizeGroups` keeps distinct groups id-disjoint, given that ids
identify rows of `unclaimed`, the keys are distinct, every already-emitted
member id is claimed, and every claimed id of an unclaimed row belongs to
an already-processed key. -/
theorem emitNameSizeGroups_claims (unclaimed : List DupFile)
    (hinj : ∀ a ∈ unclaimed, ∀ b ∈ unclaimed, a.id = b.id → a = b) :
    ∀ (keys : List (String × Nat)) (gs : List DuplicateGroupResponse)
      (seen : List Nat),
      keys.Nodup →
      (∀ g ∈ gs, ∀ f ∈ g.files, f.id ∈ seen) →
      List.Pairwise idDisjoint gs →
      (∀ f ∈ unclaimed, f.id ∈ seen → nameSizeKey f ∉ keys) →
      List.Pairwise idDisjoint (emitNameSizeGroups unclaimed gs seen keys).1 := by
  intro keys
  induction keys with
  | nil =>
      intro gs seen _ _ h2 _
      exact h2
  | cons k keys ih =>
      intro gs seen hkn h1 h2 hd
      simp only [emitNameSizeGroups]
      split
      · have hfiles : ∀ f ∈ (unclaimed.filter (fun f => decide (nameSizeKey f = k))),
            f.id ∈ (unclaimed.filter
              (fun f => decide (nameSizeKey f = k))).map (fun f => f.id) ∧
            f.id ∉ seen := by
          intro f hf
          have hfs := List.mem_filter.mp hf
          have hfk : nameSizeKey f = k := of_decide_eq_true hfs.2
          refine ⟨List.mem_map_of_mem (fun f => f.id) hf, fun hs => ?_⟩
          exact hd f hfs.1 hs (hfk ▸ List.mem_cons_self k keys)
        obtain ⟨inv1, inv2⟩ := appendGroup_inv gs seen
          ⟨"name_size::" ++ k.1 ++ "::" ++ toString k.2,
            (unclaimed.filter (fun f => decide (nameSizeKey f = k))).length,
            unclaimed.filter (fun f => decide (nameSizeKey f = k))⟩
          ((unclaimed.filter (fun f => decide (nameSizeKey f = k))).map
            (fun f => f.id))
          hfiles h1 h2
        refine ih _ _ (List.nodup_cons.mp hkn).2 inv1 inv2 ?_
        intro f hfu hfid
        rcases List.mem_append.mp hfid with hl | hr
        · intro hmem
          exact hd f hfu hl (List.mem_cons_of_mem _ hmem)
        · obtain ⟨f2, hf2, hf2id⟩ := List.mem_map.mp hr
          have hf2s := List.mem_filter.mp hf2
          have hf2k : nameSizeKey f2 = k := of_decide_eq_true hf2s.2
          have hfeq : f2 = f := hinj f2 hf2s.1 f hfu hf2id
          subst hfeq
          rw [hf2k]
          exact (List.nodup_cons.mp hkn).1
      · refine ih gs seen (List.nodup_cons.mp hkn).2 h1 h2 ?_
        intro f hfu hfid hmem
        exact hd f hfu hfid (List.mem_cons_of_mem _ hmem)

/-- C5: duplicate-tier exclusivity. Under the primary-key invariant (row
ids are distinct), any two distinct groups emitted by `get_duplicates`
have disjoint member ids: `seen_file_ids` claims every emitted member and
each later group filters claimed ids out. -/
theorem duplicate_groups_tier_exclusive (db : List DupFile)
    (mode : Option String) (hdb : (db.map DupFile.id).Nodup) :
    List.Pairwise idDisjoint (get_duplicates db mode) := by
  obtain ⟨m1, a1, b1⟩ := emitGroups_claims (contentMembers db mode)
    (contentKeys db mode) [] [] (by intro g hg; cases hg) List.Pairwise.nil
  obtain ⟨m2, a2, b2⟩ := emitGroups_claims (sizeMembers db mode)
    (sizeKeys db mode)
    (emitGroups (contentMembers db mode) [] [] (contentKeys db mode)).1
    (emitGroups (contentMembers db mode) [] [] (contentKeys db mode)).2
    a1 b1
  have hinj : ∀ a ∈ (nameSizeRows db mode).filter
      (fun f => decide (f.id ∉ (emitGroups (sizeMembers db mode)
        (emitGroups (contentMembers db mode) [] [] (contentKeys db mode)).1
        (emitGroups (contentMembers db mode) [] [] (contentKeys db mode)).2
        (sizeKeys db mode)).2)),
      ∀ b ∈ (nameSizeRows db mode).filter
      (fun f => decide (f.id ∉ (emitGroups (sizeMembers db mode)
        (emitGroups (contentMembers db mode) [] [] (contentKeys db mode)).1
        (emitGroups (contentMembers db mode) [] [] (contentKeys db mode)).2
        (sizeKeys db mode)).2)),
      a.id = b.id → a = b := by
    intro a ha b hb heq
    have ha2 : a ∈ db :=
      List.mem_of_mem_filter (mem_sortByName.mp (List.mem_of_mem_filter ha))
    have hb2 : b ∈ db :=
      List.mem_of_mem_filter (mem_sortByName.mp (List.mem_of_mem_filter hb))
    exact List.inj_on_of_nodup_map hdb ha2 hb2 heq
  refine emitNameSizeGroups_claims _ hinj _ _ _ (List.nodup_dedup _) a2 b2 ?_
  intro f hfu hfid
  have hfs := List.mem_filter.mp hfu
  exact absurd hfid (of_decide_eq_true hfs.2)

/-- Witness for `duplicate_groups_tier_exclusive` on a concrete two-row
catalog with distinct primary keys. -/
theorem duplicate_groups_tier_exclusive_witness :
    List.Pairwise idDisjoint (get_duplicates [exDupRow1, exDupRow2] none) :=
  duplicate_groups_tier_exclusive [exDupRow1, exDupRow2] none (by decide)

/-- The `provider_file_id` column of a row list (the key set of
`existing_metadata` when the list is the account query result). -/
def recordIds (s : List FileRecord) : List String :=
  s.map (fun f => f.provider_file_id)

/-- The `provider_file_id` values of a remote listing. -/
def listingIds (L : List CloudFile) : List String :=
  L.map (fun c => c.provider_file_id)

theorem applyCloudData_pid (md5hex : String → String) (f : FileRecord)
    (c : CloudFile) (now : Nat) :
    (applyCloudData md5hex f c now).provider_file_id = f.provider_file_id := rfl

theorem newFileRecord_pid (md5hex : String → String) (c : CloudFile) (now : Nat) :
    (newFileRecord md5hex c now).provider_file_id = c.provider_file_id := rfl

theorem fieldsChanged_applyCloudData (md5hex : String → String)
    (f : FileRecord) (c : CloudFile) (now : Nat) :
    fieldsChanged (applyCloudData md5hex f c now) c = false := by
  simp [fieldsChanged, applyCloudData]

theorem fieldsChanged_newFileRecord (md5hex : String → String)
    (c : CloudFile) (now : Nat) :
    fieldsChanged (newFileRecord md5hex c now) c = false := by
  simp [fieldsChanged, newFileRecord]

theorem recordIds_updateLast (g : FileRecord → FileRecord) (pid : String)
    (hg : ∀ f, (g f).provider_file_id = f.provider_file_id) :
    ∀ s : List FileRecord, recordIds (updateLast g pid s) = recordIds s := by
  intro s
  induction s with
  | nil => rfl
  | cons f rest ih =>
      simp only [updateLast]
      split
      · simp only [recordIds, List.map_cons]
        rw [show (updateLast g pid rest).map (fun f => f.provider_file_id) =
          recordIds (updateLast g pid rest) from rfl, ih]
        rfl
      · split
        · simp [recordIds, hg f]
        · rfl

theorem filter_pid_unique (s : List FileRecord) (f : FileRecord)
    (hs : (recordIds s).Nodup) (hf : f ∈ s) :
    s.filter (fun a => decide (a.provider_file_id = f.provider_file_id)) = [f] := by
  induction s with
  | nil => cases hf
  | cons g rest ih =>
      have hs2 := List.nodup_cons.mp hs
      rcases List.mem_cons.mp hf with hfg | hfr
      · subst hfg
        have hrest : rest.filter
            (fun a => decide (a.provider_file_id = f.provider_file_id)) = [] := by
          refine List.filter_eq_nil_iff.mpr ?_
          intro a ha hq
          have hmm : f.provider_file_id ∈ recordIds rest := by
            have h2 : a.provider_file_id ∈
                List.map (fun r => r.provider_file_id) rest :=
              List.mem_map_of_mem _ ha
            rw [of_decide_eq_true hq] at h2
            exact h2
          exact hs2.1 hmm
        simp [List.filter_cons, hrest]
      · have hne : g.provider_file_id ≠ f.provider_file_id := by
          intro he
          have hmm : g.provider_file_id ∈ recordIds rest := by
            have h2 : f.provider_file_id ∈
                List.map (fun r => r.provider_file_id) rest :=
              List.mem_map_of_mem _ hfr
            rw [← he] at h2
            exact h2
          exact hs2.1 hmm
        simp [List.filter_cons, hne, ih hs2.2 hfr]

theorem lookupLast_eq_none (s : List FileRecord) (pid : String) :
    lookupLast s pid = none ↔ pid ∉ recordIds s := by
  constructor
  · intro h hmem
    obtain ⟨f, hf, hfp⟩ := List.mem_map.mp hmem
    have hemp : s.filter (fun a => decide (a.provider_file_id = pid)) = [] :=
      List.getLast?_eq_none_iff.mp h
    have hf2 : f ∈ s.filter (fun a => decide (a.provider_file_id = pid)) :=
      List.mem_filter.mpr ⟨hf, decide_eq_true hfp⟩
    rw [hemp] at hf2
    cases hf2
  · intro h
    have hemp : s.filter (fun a => decide (a.provider_file_id = pid)) = [] := by
      refine List.filter_eq_nil_iff.mpr ?_
      intro a ha hq
      have h2 : a.provider_file_id ∈
          List.map (fun r => r.provider_file_id) s :=
        List.mem_map_of_mem _ ha
      rw [of_decide_eq_true hq] at h2
      exact h h2
    simp [lookupLast, hemp]

theorem lookupLast_some (s : List FileRecord) (pid : String) (f : FileRecord)
    (h : lookupLast s pid = some f) :
    f ∈ s ∧ f.provider_file_id = pid := by
  have h2 : f ∈ (s.filter (fun a => decide (a.provider_file_id = pid))).getLast? :=
    Option.mem_def.mpr h
  obtain ⟨hne, heq⟩ := List.mem_getLast?_eq_getLast h2
  have hmem : f ∈ s.filter (fun a => decide (a.provider_file_id = pid)) := by
    rw [heq]
    exact List.getLast_mem hne
  have h3 := List.mem_filter.mp hmem
  exact ⟨h3.1, of_decide_eq_true h3.2⟩

theorem lookupLast_unique (s : List FileRecord) (f : FileRecord)
    (hs : (recordIds s).Nodup) (hf : f ∈ s) :
    lookupLast s f.provider_file_id = some f := by
  simp [lookupLast, filter_pid_unique s f hs hf]

theorem getLast?_cons_congr {α : Type} (a : α) {l1 l2 : List α}
    (h : l1.getLast? = l2.getLast?) :
    (a :: l1).getLast? = (a :: l2).getLast? := by
  cases l1 with
  | nil =>
      cases l2 with
      | nil => rfl
      | cons b t => exact absurd (List.getLast?_eq_none_iff.mp h.symm) (by simp)
  | cons b t =>
      cases l2 with
      | nil => exact absurd (List.getLast?_eq_none_iff.mp h) (by simp)
      | cons b2 t2 =>
          rw [List.getLast?_cons_cons, List.getLast?_cons_cons]
          exact h

theorem lookupLast_updateLast_ne (g : FileRecord → FileRecord)
    (hg : ∀ f, (g f).provider_file_id = f.provider_file_id)
    (pid2 pid : String) (hne : pid ≠ pid2) :
    ∀ s : List FileRecord, lookupLast (updateLast g pid2 s) pid = lookupLast s pid := by
  intro s
  induction s with
  | nil => rfl
  | cons f rest ih =>
      simp only [updateLast]
      split
      · simp only [lookupLast, List.filter_cons]
        split
        · exact getLast?_cons_congr f ih
        · exact ih
      · split
        · rename_i hme hpid
          have hfp : decide (f.provider_file_id = pid) = false :=
            decide_eq_false (fun hcon => hne ((hcon ▸ hpid : pid = pid2)))
          have hq1 : decide ((g f).provider_file_id = pid) = false := by
            rw [hg f]
            exact hfp
          simp [lookupLast, List.filter_cons, hq1, hfp]
        · rfl

theorem updateLast_eq_map (g : FileRecord → FileRecord) (pid : String) :
    ∀ s : List FileRecord, (recordIds s).Nodup →
      updateLast g pid s =
        s.map (fun f => if decide (f.provider_file_id = pid) then g f else f) := by
  intro s
  induction s with
  | nil => intro _; rfl
  | cons f rest ih =>
      intro hs
      have hs2 := List.nodup_cons.mp hs
      simp only [updateLast, List.map_cons]
      split
      · rename_i hex
        obtain ⟨f2, hf2, hf2p⟩ := of_decide_eq_true hex
        have hfne : decide (f.provider_file_id = pid) = false := by
          refine decide_eq_false (fun hcon => ?_)
          have h2 : f2.provider_file_id ∈
              List.map (fun r => r.provider_file_id) rest :=
            List.mem_map_of_mem _ hf2
          rw [hf2p, ← hcon] at h2
          exact hs2.1 h2
        rw [hfne]
        simp only [if_false, Bool.false_eq_true]
        exact congrArg (f :: ·) (ih hs2.2)
      · rename_i hnex
        have hnone : ∀ f2 ∈ rest, decide (f2.provider_file_id = pid) = false := by
          intro f2 hf2
          refine decide_eq_false (fun hcon => ?_)
          exact hnex (decide_eq_true ⟨f2, hf2, hcon⟩)
        have hmaprest : rest.map
            (fun f => if decide (f.provider_file_id = pid) then g f else f) = rest := by
          have := List.map_congr_left (l := rest)
            (f := fun f => if decide (f.provider_file_id = pid) then g f else f)
            (g := id) (fun a ha => by
              show (if decide (a.provider_file_id = pid) = true then g a else a) = id a
              rw [hnone a ha]
              rfl)
          rw [this, List.map_id]
        split
        · rename_i hfp
          rw [if_pos (decide_eq_true hfp), hmaprest]
        · rename_i hfp
          have : decide (f.provider_file_id = pid) = false :=
            decide_eq_false hfp
          rw [this]
          simp only [if_false, Bool.false_eq_true]
          rw [hmaprest]

theorem find?_pid_eq_none (L : List CloudFile) (pid : String) :
    L.find? (fun c => decide (c.provider_file_id = pid)) = none ↔
      pid ∉ listingIds L := by
  rw [List.find?_eq_none]
  constructor
  · intro h hmem
    obtain ⟨c, hc, hcp⟩ := List.mem_map.mp hmem
    exact h c hc (decide_eq_true hcp)
  · intro h c hc hq
    have h2 : c.provider_file_id ∈ List.map (fun c => c.provider_file_id) L :=
      List.mem_map_of_mem _ hc
    rw [of_decide_eq_true hq] at h2
    exact h h2

theorem find?_pid_unique (L : List CloudFile) (c : CloudFile)
    (hL : (listingIds L).Nodup) (hc : c ∈ L) :
    L.find? (fun c2 => decide (c2.provider_file_id = c.provider_file_id)) =
      some c := by
  induction L with
  | nil => cases hc
  | cons d rest ih =>
      have hs2 := List.nodup_cons.mp hL
      rcases List.mem_cons.mp hc with hcd | hcr
      · subst hcd
        simp [List.find?_cons]
      · have hne : decide (d.provider_file_id = c.provider_file_id) = false := by
          refine decide_eq_false (fun hcon => ?_)
          have h2 : c.provider_file_id ∈
              List.map (fun r => r.provider_file_id) rest :=
            List.mem_map_of_mem _ hcr
          rw [← hcon] at h2
          exact hs2.1 h2
        rw [List.find?_cons, hne]
        exact ih hs2.2 hcr

/-- Closed form of the per-row effect of one descriptor loop: the unique
descriptor matching the row (if any) either rewrites the row or leaves it
alone. -/
def syncUpdateOne (md5hex : String → String) (now : Nat) (L : List CloudFile)
    (f : FileRecord) : FileRecord :=
  match L.find? (fun c => decide (c.provider_file_id = f.provider_file_id)) with
  | some c => if fieldsChanged f c then applyCloudData md5hex f c now else f
  | none => f

/-- Closed form of the per-row effect of the deactivation pass. -/
def deactivateOne (now : Nat) (seen : List String) (f : FileRecord) : FileRecord :=
  if decide (f.provider_file_id ∉ seen) && f.is_active then
    { f with is_active := false, updated_at := now }
  else f

/-- Whether processing descriptor `c` against the dict built over `orig`
performs a row write (update with a changed field, or insert). -/
def writeNeededB (orig : List FileRecord) (c : CloudFile) : Bool :=
  match lookupLast orig c.provider_file_id with
  | some f => fieldsChanged f c
  | none => true

theorem syncUpdateOne_pid (md5hex : String → String) (now : Nat)
    (L : List CloudFile) (f : FileRecord) :
    (syncUpdateOne md5hex now L f).provider_file_id = f.provider_file_id := by
  unfold syncUpdateOne
  split
  · split
    · rfl
    · rfl
  · rfl

theorem deactivateOne_pid (now : Nat) (seen : List String) (f : FileRecord) :
    (deactivateOne now seen f).provider_file_id = f.provider_file_id := by
  unfold deactivateOne
  split
  · rfl
  · rfl

theorem syncUpdateOne_of_find (md5hex : String → String) (now : Nat)
    (L : List CloudFile) (f : FileRecord) (c : CloudFile)
    (h : L.find? (fun c2 => decide (c2.provider_file_id = f.provider_file_id)) =
      some c) :
    syncUpdateOne md5hex now L f =
      if fieldsChanged f c then applyCloudData md5hex f c now else f := by
  unfold syncUpdateOne
  rw [h]

theorem syncUpdateOne_of_none (md5hex : String → String) (now : Nat)
    (L : List CloudFile) (f : FileRecord)
    (h : L.find? (fun c2 => decide (c2.provider_file_id = f.provider_file_id)) =
      none) :
    syncUpdateOne md5hex now L f = f := by
  unfold syncUpdateOne
  rw [h]

theorem find?_pid_cons_self (c : CloudFile) (rest : List CloudFile)
    (pid : String) (h : c.provider_file_id = pid) :
    (c :: rest).find? (fun c2 => decide (c2.provider_file_id = pid)) = some c := by
  simp [List.find?_cons, h]

theorem find?_pid_cons_ne (c : CloudFile) (rest : List CloudFile)
    (pid : String) (h : c.provider_file_id ≠ pid) :
    (c :: rest).find? (fun c2 => decide (c2.provider_file_id = pid)) =
      rest.find? (fun c2 => decide (c2.provider_file_id = pid)) := by
  simp [List.find?_cons, h]

/-- Closed form of the whole descriptor loop when neither the remote
listing nor the account rows repeat a `provider_file_id`: each original
row is rewritten by its unique matching descriptor (if any), the
descriptors with unknown ids append fresh rows in order, the seen set
collects the listing ids, and the write counter adds one write per
changed-or-new descriptor. -/
theorem processFiles_spec (md5hex : String → String) (now : Nat) :
    ∀ (L : List CloudFile) (orig news : List FileRecord) (seen : List String)
      (w : Nat), (listingIds L).Nodup → (recordIds orig).Nodup →
      processFiles md5hex now orig news seen w L =
        (orig.map (syncUpdateOne md5hex now L),
         news ++ (L.filter
           (fun c => decide (c.provider_file_id ∉ recordIds orig))).map
           (fun c => newFileRecord md5hex c now),
         (L.map (fun c => c.provider_file_id)).reverse ++ seen,
         w + L.countP (writeNeededB orig)) := by
  intro L
  induction L with
  | nil =>
      intro orig news seen w _ _
      have h1 : orig.map (syncUpdateOne md5hex now []) = orig :=
        (List.map_congr_left (fun a _ => rfl)).trans (List.map_id orig)
      simp [processFiles, h1]
  | cons c rest ih =>
      intro orig news seen w hL hOrig
      have hL2 : c.provider_file_id ∉ listingIds rest ∧ (listingIds rest).Nodup :=
        List.nodup_cons.mp hL
      simp only [processFiles]
      cases hlk : lookupLast orig c.provider_file_id with
      | some f =>
          obtain ⟨hfmem, hfpid⟩ := lookupLast_some orig c.provider_file_id f hlk
          have hcmem : c.provider_file_id ∈ recordIds orig := by
            rw [← hfpid]
            exact List.mem_map_of_mem _ hfmem
          have hfilterhead : decide
              (c.provider_file_id ∉ recordIds orig) = false := by
            simp [hcmem]
          by_cases hch : fieldsChanged f c = true
          · simp only [hch, if_true]
            have hids1 : recordIds (updateLast
                (fun f2 => applyCloudData md5hex f2 c now)
                c.provider_file_id orig) = recordIds orig :=
              recordIds_updateLast
                (fun f2 => applyCloudData md5hex f2 c now)
                c.provider_file_id (fun f2 => rfl) orig
            rw [ih _ news (c.provider_file_id :: seen) (w + 1) hL2.2
              (by rw [hids1]; exact hOrig)]
            simp only [Prod.mk.injEq]
            refine ⟨?_, ?_, ?_, ?_⟩
            · rw [updateLast_eq_map
                (fun f2 => applyCloudData md5hex f2 c now)
                c.provider_file_id orig hOrig, List.map_map]
              refine List.map_congr_left (fun f0 hf0 => ?_)
              show syncUpdateOne md5hex now rest
                  (if decide (f0.provider_file_id = c.provider_file_id) = true
                   then applyCloudData md5hex f0 c now else f0) =
                syncUpdateOne md5hex now (c :: rest) f0
              by_cases hp : f0.provider_file_id = c.provider_file_id
              · have hf0f : f0 = f :=
                  List.inj_on_of_nodup_map hOrig hf0 hfmem (by rw [hp, hfpid])
                have hch0 : fieldsChanged f0 c = true := by
                  rw [hf0f]
                  exact hch
                rw [if_pos (decide_eq_true hp)]
                rw [syncUpdateOne_of_none md5hex now rest
                  (applyCloudData md5hex f0 c now)
                  ((find?_pid_eq_none rest _).mpr (by
                    show f0.provider_file_id ∉ listingIds rest
                    rw [hp]
                    exact hL2.1))]
                rw [syncUpdateOne_of_find md5hex now (c :: rest) f0 c
                  (find?_pid_cons_self c rest _ hp.symm)]
                rw [hch0]
                simp
              · rw [if_neg (by simpa using hp)]
                show syncUpdateOne md5hex now rest f0 =
                  syncUpdateOne md5hex now (c :: rest) f0
                unfold syncUpdateOne
                rw [find?_pid_cons_ne c rest _ (fun hcon => hp hcon.symm)]
            · rw [hids1]
              simp [List.filter_cons, hcmem]
            · simp [List.reverse_cons, List.append_assoc]
            · have hcount : rest.countP (writeNeededB (updateLast
                  (fun f2 => applyCloudData md5hex f2 c now)
                  c.provider_file_id orig)) = rest.countP (writeNeededB orig) := by
                refine List.countP_congr (fun c2 hc2 => ?_)
                have hne2 : c2.provider_file_id ≠ c.provider_file_id := by
                  intro hcon
                  refine hL2.1 ?_
                  rw [← hcon]
                  exact List.mem_map_of_mem _ hc2
                unfold writeNeededB
                rw [lookupLast_updateLast_ne
                  (fun f2 => applyCloudData md5hex f2 c now)
                  (fun f2 => rfl) c.provider_file_id c2.provider_file_id hne2 orig]
              rw [hcount, List.countP_cons]
              have hwn : writeNeededB orig c = true := by
                unfold writeNeededB
                rw [hlk]
                exact hch
              rw [hwn]
              have hone : (if (true : Bool) = true then 1 else 0) = 1 := rfl
              rw [hone]
              omega
          · have hchf : fieldsChanged f c = false := by
              cases h2 : fieldsChanged f c
              · rfl
              · exact absurd h2 hch
            simp only [hchf, Bool.false_eq_true, if_false]
            rw [ih orig news (c.provider_file_id :: seen) w hL2.2 hOrig]
            simp only [Prod.mk.injEq]
            refine ⟨?_, ?_, ?_, ?_⟩
            · refine List.map_congr_left (fun f0 hf0 => ?_)
              by_cases hp : f0.provider_file_id = c.provider_file_id
              · have hf0f : f0 = f :=
                  List.inj_on_of_nodup_map hOrig hf0 hfmem (by rw [hp, hfpid])
                have hch0 : fieldsChanged f0 c = false := by
                  rw [hf0f]
                  exact hchf
                rw [syncUpdateOne_of_none md5hex now rest f0
                  ((find?_pid_eq_none rest _).mpr (by rw [hp]; exact hL2.1))]
                rw [syncUpdateOne_of_find md5hex now (c :: rest) f0 c
                  (find?_pid_cons_self c rest _ hp.symm)]
                rw [hch0]
                simp
              · show syncUpdateOne md5hex now rest f0 =
                  syncUpdateOne md5hex now (c :: rest) f0
                unfold syncUpdateOne
                rw [find?_pid_cons_ne c rest _ (fun hcon => hp hcon.symm)]
            · simp [List.filter_cons, hcmem]
            · simp [List.reverse_cons, List.append_assoc]
            · rw [List.countP_cons]
              have hwn : writeNeededB orig c = false := by
                unfold writeNeededB
                rw [hlk]
                exact hchf
              rw [hwn]
              have hzero : (if (false : Bool) = true then 1 else 0) = 0 := rfl
              rw [hzero]
              omega
      | none =>
          have hnotmem : c.provider_file_id ∉ recordIds orig :=
            (lookupLast_eq_none orig c.provider_file_id).mp hlk
          rw [ih orig (news ++ [newFileRecord md5hex c now])
            (c.provider_file_id :: seen) (w + 1) hL2.2 hOrig]
          simp only [Prod.mk.injEq]
          refine ⟨?_, ?_, ?_, ?_⟩
          · refine List.map_congr_left (fun f0 hf0 => ?_)
            have hp : f0.provider_file_id ≠ c.provider_file_id := by
              intro hcon
              refine hnotmem ?_
              rw [← hcon]
              exact List.mem_map_of_mem _ hf0
            show syncUpdateOne md5hex now rest f0 =
              syncUpdateOne md5hex now (c :: rest) f0
            unfold syncUpdateOne
            rw [find?_pid_cons_ne c rest _ (fun hcon => hp hcon.symm)]
          · simp [List.filter_cons, hnotmem]
          · simp [List.reverse_cons, List.append_assoc]
          · rw [List.countP_cons]
            have hwn : writeNeededB orig c = true := by
              unfold writeNeededB
              rw [hlk]
            rw [hwn]
            have hone : (if (true : Bool) = true then 1 else 0) = 1 := rfl
            rw [hone]
            omega

/-- Closed form of the deactivation pass when row ids are distinct: every
row is its own dict entry, so each active unseen row is flipped, and the
write counter adds one per flipped row. -/
theorem deactivatePass_spec (now : Nat) (seen : List String) :
    ∀ s : List FileRecord, (recordIds s).Nodup →
      deactivatePass now seen s =
        (s.map (deactivateOne now seen),
         s.countP (fun f => decide (f.provider_file_id ∉ seen) && f.is_active)) := by
  intro s
  induction s with
  | nil =>
      intro _
      simp [deactivatePass]
  | cons f rest ih =>
      intro hs
      have hs2 := List.nodup_cons.mp hs
      have hnoex : decide (∃ f2 ∈ rest,
          f2.provider_file_id = f.provider_file_id) = false := by
        refine decide_eq_false ?_
        rintro ⟨f2, hf2, hp⟩
        refine hs2.1 ?_
        have h2 : f2.provider_file_id ∈
            List.map (fun r => r.provider_file_id) rest :=
          List.mem_map_of_mem _ hf2
        rw [hp] at h2
        exact h2
      simp only [deactivatePass, hnoex, Bool.false_eq_true, if_false]
      rw [ih hs2.2]
      cases hact : (decide (f.provider_file_id ∉ seen) && f.is_active) with
      | true =>
          simp only [hact, if_true, List.map_cons, List.countP_cons,
            Prod.mk.injEq]
          refine ⟨?_, ?_⟩
          · have hd : deactivateOne now seen f =
                { f with is_active := false, updated_at := now } := by
              unfold deactivateOne
              rw [hact]
              rfl
            rw [hd]
          · simp [hact]
      | false =>
          simp only [hact, Bool.false_eq_true, if_false, List.map_cons,
            List.countP_cons, Prod.mk.injEq]
          refine ⟨?_, ?_⟩
          · have hd : deactivateOne now seen f = f := by
              unfold deactivateOne
              rw [hact]
              rfl
            rw [hd]
          · simp [hact]

theorem recordIds_map_syncUpdateOne (md5hex : String → String) (now : Nat)
    (L : List CloudFile) (s0 : List FileRecord) :
    recordIds (s0.map (syncUpdateOne md5hex now L)) = recordIds s0 := by
  simp only [recordIds, List.map_map]
  exact List.map_congr_left (fun f _ => syncUpdateOne_pid md5hex now L f)

/-- Closed form of one whole reconciliation when neither the listing nor
the account rows repeat a `provider_file_id`: each original row is
rewritten by its unique matching descriptor and then deactivated if its id
was not listed; fresh rows are appended for unknown listed ids; the write
count is one per changed-or-new descriptor plus one per deactivated row. -/
theorem runFileSync_spec (md5hex : String → String) (s0 : List FileRecord)
    (L : List CloudFile) (now : Nat)
    (hL : (listingIds L).Nodup) (hs0 : (recordIds s0).Nodup) :
    runFileSync md5hex s0 L now =
      (s0.map (fun f => deactivateOne now (listingIds L).reverse
          (syncUpdateOne md5hex now L f)) ++
        (L.filter (fun c => decide (c.provider_file_id ∉ recordIds s0))).map
          (fun c => newFileRecord md5hex c now),
       L.countP (writeNeededB s0) +
        s0.countP (fun f =>
          decide ((syncUpdateOne md5hex now L f).provider_file_id
            ∉ (listingIds L).reverse) &&
          (syncUpdateOne md5hex now L f).is_active)) := by
  unfold runFileSync
  rw [processFiles_spec md5hex now L s0 [] [] 0 hL hs0]
  have hseen : (L.map (fun c => c.provider_file_id)).reverse ++ ([] : List String) =
      (listingIds L).reverse := by
    rw [List.append_nil]
    rfl
  have hnodup2 : (recordIds (s0.map (syncUpdateOne md5hex now L))).Nodup := by
    rw [recordIds_map_syncUpdateOne]
    exact hs0
  simp only [hseen]
  rw [deactivatePass_spec now (listingIds L).reverse _ hnodup2]
  simp only [List.map_map, List.countP_map, Prod.mk.injEq]
  constructor
  · rfl
  · have hc : List.countP
        ((fun f => decide (f.provider_file_id ∉ (listingIds L).reverse) &&
          f.is_active) ∘ syncUpdateOne md5hex now L) s0 =
      List.countP (fun f =>
        decide ((syncUpdateOne md5hex now L f).provider_file_id ∉
          (listingIds L).reverse) &&
        (syncUpdateOne md5hex now L f).is_active) s0 := rfl
    rw [Nat.zero_add, hc]

/-- A reconciliation run is a no-op (zero writes, rows untouched) on any
state in which every listed descriptor already has a matching row with no
changed field, and every unlisted row is already inactive. -/
theorem runFileSync_fixpoint (md5hex : String → String) (s : List FileRecord)
    (L : List CloudFile) (now : Nat)
    (hL : (listingIds L).Nodup) (hs : (recordIds s).Nodup)
    (hmatch : ∀ c ∈ L, ∃ f ∈ s,
      f.provider_file_id = c.provider_file_id ∧ fieldsChanged f c = false)
    (hinactive : ∀ f ∈ s,
      f.provider_file_id ∉ listingIds L → f.is_active = false) :
    runFileSync md5hex s L now = (s, 0) := by
  rw [runFileSync_spec md5hex s L now hL hs]
  have hfil : L.filter (fun c => decide (c.provider_file_id ∉ recordIds s)) = [] := by
    refine List.filter_eq_nil_iff.mpr ?_
    intro c hc hdec
    obtain ⟨f, hf, hfp, _⟩ := hmatch c hc
    have hmem : c.provider_file_id ∈ recordIds s := by
      rw [← hfp]
      exact List.mem_map_of_mem _ hf
    exact (of_decide_eq_true hdec) hmem
  have hupd : ∀ f ∈ s, syncUpdateOne md5hex now L f = f := by
    intro f hf
    by_cases hmem : f.provider_file_id ∈ listingIds L
    · obtain ⟨c, hc, hcp⟩ := List.mem_map.mp hmem
      have hfind : L.find? (fun c2 =>
          decide (c2.provider_file_id = f.provider_file_id)) = some c := by
        rw [show f.provider_file_id =
          c.provider_file_id from hcp.symm]
        exact find?_pid_unique L c hL hc
      obtain ⟨f2, hf2, hf2p, hf2ch⟩ := hmatch c hc
      have hf2f : f2 = f :=
        List.inj_on_of_nodup_map hs hf2 hf (by rw [hf2p, hcp])
      have hflds : fieldsChanged f c = false := by
        rw [← hf2f]
        exact hf2ch
      rw [syncUpdateOne_of_find md5hex now L f c hfind, hflds]
      rfl
    · exact syncUpdateOne_of_none md5hex now L f
        ((find?_pid_eq_none L f.provider_file_id).mpr hmem)
  have hrow : ∀ f ∈ s, deactivateOne now (listingIds L).reverse
      (syncUpdateOne md5hex now L f) = f := by
    intro f hf
    rw [hupd f hf]
    by_cases hmem : f.provider_file_id ∈ listingIds L
    · have hdec : decide (f.provider_file_id ∉ (listingIds L).reverse) = false := by
        simp [List.mem_reverse, hmem]
      unfold deactivateOne
      rw [hdec]
      rfl
    · have hia : f.is_active = false := hinactive f hf hmem
      unfold deactivateOne
      rw [hia, Bool.and_false]
      rfl
  simp only [Prod.mk.injEq]
  refine ⟨?_, ?_⟩
  · rw [hfil]
    simp only [List.map_nil, List.append_nil]
    rw [List.map_congr_left (g := id) (fun f hf => hrow f hf), List.map_id]
  · have hw1 : L.countP (writeNeededB s) = 0 := by
      refine List.countP_eq_zero.mpr ?_
      intro c hc hwn
      obtain ⟨f, hf, hfp, hfch⟩ := hmatch c hc
      have hlk : lookupLast s c.provider_file_id = some f := by
        rw [← hfp]
        exact lookupLast_unique s f hs hf
      unfold writeNeededB at hwn
      rw [hlk] at hwn
      have hwn2 : fieldsChanged f c = true := hwn
      rw [hfch] at hwn2
      cases hwn2
    have hw2 : s.countP (fun f =>
        decide ((syncUpdateOne md5hex now L f).provider_file_id ∉
          (listingIds L).reverse) &&
        (syncUpdateOne md5hex now L f).is_active) = 0 := by
      refine List.countP_eq_zero.mpr ?_
      intro f hf hpred
      rw [hupd f hf] at hpred
      by_cases hmem : f.provider_file_id ∈ listingIds L
      · have hdec : decide (f.provider_file_id ∉ (listingIds L).reverse) = false := by
          simp [List.mem_reverse, hmem]
        rw [hdec, Bool.false_and] at hpred
        cases hpred
      · have hia : f.is_active = false := hinactive f hf hmem
        rw [hia, Bool.and_false] at hpred
        cases hpred
    rw [hw1, hw2]

theorem fieldsChanged_deactivateOne (now : Nat) (seen : List String)
    (f : FileRecord) (c : CloudFile) :
    fieldsChanged (deactivateOne now seen f) c = fieldsChanged f c := by
  unfold deactivateOne
  split
  · rfl
  · rfl

/-- After one reconciliation over a listing and a state with distinct ids,
the state again has distinct ids, every listed descriptor has a matching
row with no changed field, and every unlisted row is inactive. -/
theorem runFileSync_post (md5hex : String → String) (s0 : List FileRecord)
    (L : List CloudFile) (now : Nat)
    (hL : (listingIds L).Nodup) (hs0 : (recordIds s0).Nodup) :
    (recordIds (runFileSync md5hex s0 L now).1).Nodup ∧
    (∀ c ∈ L, ∃ f ∈ (runFileSync md5hex s0 L now).1,
      f.provider_file_id = c.provider_file_id ∧ fieldsChanged f c = false) ∧
    (∀ f ∈ (runFileSync md5hex s0 L now).1,
      f.provider_file_id ∉ listingIds L → f.is_active = false) := by
  rw [runFileSync_spec md5hex s0 L now hL hs0]
  have hA : recordIds (s0.map (fun f => deactivateOne now (listingIds L).reverse
      (syncUpdateOne md5hex now L f))) = recordIds s0 := by
    simp only [recordIds, List.map_map]
    refine List.map_congr_left (fun f _ => ?_)
    show (deactivateOne now (listingIds L).reverse
      (syncUpdateOne md5hex now L f)).provider_file_id = f.provider_file_id
    rw [deactivateOne_pid, syncUpdateOne_pid]
  have hN : recordIds ((L.filter
      (fun c => decide (c.provider_file_id ∉ recordIds s0))).map
      (fun c => newFileRecord md5hex c now)) =
      (L.filter (fun c => decide (c.provider_file_id ∉ recordIds s0))).map
        (fun c => c.provider_file_id) := by
    simp only [recordIds, List.map_map]
    exact List.map_congr_left (fun c _ => rfl)
  refine ⟨?_, ?_, ?_⟩
  · show (recordIds (_ ++ _)).Nodup
    have happ : recordIds (s0.map (fun f => deactivateOne now
        (listingIds L).reverse (syncUpdateOne md5hex now L f)) ++
        (L.filter (fun c => decide (c.provider_file_id ∉ recordIds s0))).map
          (fun c => newFileRecord md5hex c now)) =
        recordIds s0 ++ (L.filter
          (fun c => decide (c.provider_file_id ∉ recordIds s0))).map
          (fun c => c.provider_file_id) := by
      show List.map _ (_ ++ _) = _
      rw [List.map_append]
      rw [show List.map (fun f => f.provider_file_id) (s0.map
        (fun f => deactivateOne now (listingIds L).reverse
          (syncUpdateOne md5hex now L f))) = recordIds s0 from hA]
      rw [show List.map (fun f => f.provider_file_id) ((L.filter
        (fun c => decide (c.provider_file_id ∉ recordIds s0))).map
        (fun c => newFileRecord md5hex c now)) = _ from hN]
    rw [happ]
    refine List.nodup_append.mpr ⟨hs0, ?_, ?_⟩
    · have hsub : ((L.filter
          (fun c => decide (c.provider_file_id ∉ recordIds s0))).map
          (fun c => c.provider_file_id)).Sublist
          (L.map (fun c => c.provider_file_id)) :=
        List.Sublist.map _ (List.filter_sublist L)
      exact hsub.nodup hL
    · intro x hx1 hx2
      obtain ⟨c, hcf, hcp⟩ := List.mem_map.mp hx2
      have hdec := (List.mem_filter.mp hcf).2
      exact (of_decide_eq_true hdec) (hcp ▸ hx1)
  · intro c hc
    by_cases hc0 : c.provider_file_id ∈ recordIds s0
    · obtain ⟨f0, hf0, hf0p⟩ := List.mem_map.mp hc0
      refine ⟨deactivateOne now (listingIds L).reverse
        (syncUpdateOne md5hex now L f0),
        List.mem_append_left _ (List.mem_map_of_mem _ hf0), ?_, ?_⟩
      · rw [deactivateOne_pid, syncUpdateOne_pid]
        exact hf0p
      · have hfind : L.find? (fun c2 =>
            decide (c2.provider_file_id = f0.provider_file_id)) = some c := by
          rw [show f0.provider_file_id = c.provider_file_id from hf0p]
          exact find?_pid_unique L c hL hc
        have hmid := syncUpdateOne_of_find md5hex now L f0 c hfind
        rw [fieldsChanged_deactivateOne, hmid]
        by_cases hch : fieldsChanged f0 c = true
        · rw [hch]
          have hred : (if (true : Bool) = true then
              applyCloudData md5hex f0 c now else f0) =
            applyCloudData md5hex f0 c now := rfl
          rw [hred]
          exact fieldsChanged_applyCloudData md5hex f0 c now
        · have hchf : fieldsChanged f0 c = false :=
            Bool.not_eq_true _ ▸ eq_false_of_ne_true hch
          rw [hchf]
          have hred : (if (false : Bool) = true then
              applyCloudData md5hex f0 c now else f0) = f0 := rfl
          rw [hred]
          exact hchf
    · refine ⟨newFileRecord md5hex c now,
        List.mem_append_right _ (List.mem_map_of_mem _
          (List.mem_filter.mpr ⟨hc, decide_eq_true hc0⟩)), rfl,
        fieldsChanged_newFileRecord md5hex c now⟩
  · intro f hf hnot
    rcases List.mem_append.mp hf with hfA | hfN
    · obtain ⟨f0, hf0, heq⟩ := List.mem_map.mp hfA
      have hp0 : f.provider_file_id = f0.provider_file_id := by
        rw [← heq, deactivateOne_pid, syncUpdateOne_pid]
      have hnot0 : f0.provider_file_id ∉ listingIds L := by
        rw [← hp0]
        exact hnot
      have hupd0 : syncUpdateOne md5hex now L f0 = f0 :=
        syncUpdateOne_of_none md5hex now L f0
          ((find?_pid_eq_none L f0.provider_file_id).mpr hnot0)
      have hdec : decide (f0.provider_file_id ∉ (listingIds L).reverse) = true :=
        decide_eq_true (fun hmem => hnot0 (List.mem_reverse.mp hmem))
      rw [← heq, hupd0]
      unfold deactivateOne
      rw [hdec, Bool.true_and]
      cases hia : f0.is_active
      · have hred : (if false = true then
            { f0 with is_active := false, updated_at := now } else f0) = f0 := rfl
        rw [hred]
        exact hia
      · have hred : (if true = true then
            { f0 with is_active := false, updated_at := now } else f0) =
          { f0 with is_active := false, updated_at := now } := rfl
        rw [hred]
    · obtain ⟨c, hcf, heq⟩ := List.mem_map.mp hfN
      have hcL : c ∈ L := (List.mem_filter.mp hcf).1
      have hcid : f.provider_file_id = c.provider_file_id := by
        rw [← heq]
        rfl
      exact absurd (by
        rw [hcid]
        exact List.mem_map_of_mem _ hcL) hnot

/-- A descriptor for `provider_file_id "a"` that differs from
`exActiveRecord` only in the name. -/
def exDescChanged : CloudFile :=
  { provider_file_id := "a", name := "z.png", path := some "/",
    mime_type := some "image/png", is_folder := none, size := some 100,
    created_at := some 1, modified_at := some 2, download_link := none,
    preview_link := none, web_view_link := some "https://x",
    content_hash := some "h1" }

/-- A descriptor for `provider_file_id "a"` whose compared fields all
agree with `exActiveRecord`. -/
def exDescSame : CloudFile :=
  { exDescChanged with name := "x.png" }

/-- C3, as stated, is false: a remote listing that repeats a
`provider_file_id` with differing fields makes the second identical run
perform two more row writes (the single stored row is rewritten by each
of the two descriptors again, refreshing `updated_at`), because the
engine looks every descriptor up in the same pre-built dict. -/
theorem reconciliation_not_idempotent_with_duplicate_ids :
    (runFileSync (fun s => s)
      (runFileSync (fun s => s) [exActiveRecord]
        [exDescChanged, exDescSame] 5).1
      [exDescChanged, exDescSame] 6).2 = 2 ∧ (2 : Nat) ≠ 0 := by
  constructor
  · decide
  · decide

/-- C3 (amended): reconciliation is idempotent for every listing with
pairwise-distinct `provider_file_id`s, on every account state satisfying
the data-model row-identity invariant (distinct ids): re-running with the
identical listing performs zero row writes (no field change, no
`updated_at` refresh, no insert, no deactivation) and returns the rows of
the first run unchanged. -/
theorem reconciliation_idempotent (md5hex : String → String)
    (s0 : List FileRecord) (L : List CloudFile) (t1 t2 : Nat)
    (hs0 : (recordIds s0).Nodup) (hL : (listingIds L).Nodup) :
    runFileSync md5hex (runFileSync md5hex s0 L t1).1 L t2 =
      ((runFileSync md5hex s0 L t1).1, 0) := by
  obtain ⟨h1, h2, h3⟩ := runFileSync_post md5hex s0 L t1 hL hs0
  exact runFileSync_fixpoint md5hex _ L t2 hL h1 h2 h3

/-- Witness for `reconciliation_idempotent` on a one-row account and a
one-descriptor listing. -/
theorem reconciliation_idempotent_witness :
    runFileSync (fun s => s)
      (runFileSync (fun s => s) [exActiveRecord] [exDescSame] 5).1
      [exDescSame] 6 =
    ((runFileSync (fun s => s) [exActiveRecord] [exDescSame] 5).1, 0) :=
  reconciliation_idempotent (fun s => s) [exActiveRecord] [exDescSame] 5 6
    (by decide) (by decide)

/-- C4: an inactive row whose compared fields all equal its remote
descriptor stays in the state unchanged - in particular still inactive -
because `is_active = True` is assigned only inside the some-field-differs
update branch, and the deactivation pass skips ids seen in the listing.
Stated under the row-identity invariant (distinct ids) and for listings
with distinct ids. -/
theorem inactive_unchanged_row_stays_inactive (md5hex : String → String)
    (s0 : List FileRecord) (L : List CloudFile) (now : Nat)
    (hs0 : (recordIds s0).Nodup) (hL : (listingIds L).Nodup)
    (f0 : FileRecord) (hf0 : f0 ∈ s0) (hinact : f0.is_active = false)
    (c : CloudFile) (hc : c ∈ L)
    (hpid : c.provider_file_id = f0.provider_file_id)
    (hmatch : fieldsChanged f0 c = false) :
    f0 ∈ (runFileSync md5hex s0 L now).1 ∧
    (∀ f ∈ (runFileSync md5hex s0 L now).1,
      f.provider_file_id = f0.provider_file_id → f = f0) ∧
    (∀ f ∈ (runFileSync md5hex s0 L now).1,
      f.provider_file_id = f0.provider_file_id → f.is_active = false) := by
  have hnodup1 := (runFileSync_post md5hex s0 L now hL hs0).1
  have hg : deactivateOne now (listingIds L).reverse
      (syncUpdateOne md5hex now L f0) = f0 := by
    have hfind : L.find? (fun c2 =>
        decide (c2.provider_file_id = f0.provider_file_id)) = some c := by
      rw [← hpid]
      exact find?_pid_unique L c hL hc
    rw [syncUpdateOne_of_find md5hex now L f0 c hfind, hmatch]
    have hred : (if (false : Bool) = true then
        applyCloudData md5hex f0 c now else f0) = f0 := rfl
    rw [hred]
    have hmem : f0.provider_file_id ∈ listingIds L := by
      rw [← hpid]
      exact List.mem_map_of_mem _ hc
    have hdec : decide (f0.provider_file_id ∉ (listingIds L).reverse) = false := by
      simp [List.mem_reverse, hmem]
    unfold deactivateOne
    rw [hdec, Bool.false_and]
    rfl
  have hmem1 : f0 ∈ (runFileSync md5hex s0 L now).1 := by
    rw [runFileSync_spec md5hex s0 L now hL hs0]
    refine List.mem_append_left _ ?_
    rw [← hg]
    exact List.mem_map_of_mem _ hf0
  refine ⟨hmem1, ?_, ?_⟩
  · intro f hf hfp
    exact List.inj_on_of_nodup_map hnodup1 hf hmem1 hfp
  · intro f hf hfp
    rw [List.inj_on_of_nodup_map hnodup1 hf hmem1 hfp]
    exact hinact

/-- The stored row of `exActiveRecord`, already inactive. -/
def exInactiveRecord : FileRecord :=
  { exActiveRecord with is_active := false }

/-- Witness for `inactive_unchanged_row_stays_inactive` on a one-row
account whose row is inactive and matched by its descriptor. -/
theorem inactive_unchanged_row_witness :
    exInactiveRecord ∈
      (runFileSync (fun s => s) [exInactiveRecord] [exDescSame] 7).1 := by
  exact (inactive_unchanged_row_stays_inactive (fun s => s) [exInactiveRecord]
    [exDescSame] 7 (by decide) (by decide) exInactiveRecord (by decide)
    (by decide) exDescSame (by decide) (by decide) (by decide)).1

end OneClouds
